import Mathlib

/-!
# Scheduling backend: shallow embedding and verification

A shallow embedding of the core of a scheduling backend (employees,
time-bounded jobs, assignments) together with proofs about its
conflict-detection engine, repositories and query layer.

Conventions of the embedding:
* timestamps are modelled as integers (seconds on a global timeline);
  `datetime` values are totally ordered, so only the order and the
  differences matter to the code under study;
* durations in hours are rationals (`(end - start) / 3600`);
* the JSON record store is a map from a file path to the optional list
  of records it holds (`none` = the file does not exist);
* fallible operations return `Option`/`Except`; Python `None` becomes
  `Option.none`, raised/returned error kinds become explicit error values.
-/

namespace Scheduling

/-- Employee record (`app/models/employee.py`): id, display name, role and
an availability flag (default `true`). -/
structure Employee where
  id : String
  name : String
  role : String
  availability : Bool
deriving DecidableEq, Repr

/-- Job record (`app/models/job.py`): id, name and a `[startTime, endTime)`
time window, timestamps in seconds. -/
structure Job where
  id : String
  name : String
  startTime : Int
  endTime : Int
deriving DecidableEq, Repr

/-- Assignment record (`app/models/assignment.py`): links an employee to a
job, with a creation timestamp and optional notes. -/
structure Assignment where
  id : String
  employeeId : String
  jobId : String
  assignedAt : Int
  notes : Option String
deriving DecidableEq, Repr

/-! ## Record store (`app/services/data_service.py`)

One logical table per file path; a table holds an ordered list of records.
`none` models a file that does not exist yet. -/

/-- The state of the file-backed record store: each path optionally holds an
ordered list of records. -/
def StoreState (α : Type) : Type := String → Option (List α)

/-- `read_json_file` (`data_service.py:25-45`): return the table contents,
or the empty list when the file does not exist. -/
def read_json_file {α : Type} (st : StoreState α) (path : String) : List α :=
  match st path with
  | none => []
  | some records => records

/-- `write_json_file` (`data_service.py:48-64`): replace the whole table at
`path` with `records`, leaving every other path untouched. -/
def write_json_file {α : Type} (st : StoreState α) (path : String)
    (records : List α) : StoreState α :=
  fun p => if p = path then some records else st p

/-! ## Job construction and time validation (`app/models/job.py`) -/

/-- Duration of a job in hours (`Job.get_duration_hours`,
`job.py:64-66`): `(endTime - startTime).total_seconds() / 3600`. -/
def Job.get_duration_hours (j : Job) : ℚ :=
  ((j.endTime - j.startTime : Int) : ℚ) / 3600

/-- the Python builtin `str.strip()`: drop whitespace from both ends. -/
def pyStrip (s : String) : String :=
  String.mk
    (((s.data.dropWhile Char.isWhitespace).reverse.dropWhile
        Char.isWhitespace).reverse)

/-- Pydantic field bounds on the job name (`job.py:29-31`):
`min_length=3, max_length=200` on the raw string. -/
def jobNameFieldOk (name : String) : Bool :=
  3 ≤ name.length && name.length ≤ 200

/-- `Job.validate_name` (`job.py:35-41`): reject a name that is empty after
stripping, otherwise return the stripped name. -/
def job_validate_name (name : String) : Option String :=
  if pyStrip name == "" then none else some (pyStrip name)

/-- `Job.validate_time_range` (`job.py:43-58`): end after start, duration at
most 24 hours and at least 30 minutes (duration computed in hours). -/
def job_validate_time_range (startTime endTime : Int) : Bool :=
  if endTime ≤ startTime then false
  else
    -- duration in hours, as the code computes it
    if 24 < ((endTime - startTime : Int) : ℚ) / 3600 then false
    else if ((endTime - startTime : Int) : ℚ) / 3600 < 1 / 2 then false
    else true

/-- Job construction (`Job(...)` through the pydantic validators of
`job.py`): field bounds, then the name validator, then the time-range model
validator; any violation yields no `Job` (an `InvalidEntity` error). -/
def mkJob (id name : String) (startTime endTime : Int) : Option Job :=
  if jobNameFieldOk name then
    match job_validate_name name with
    | none => none
    | some cleaned =>
        if job_validate_time_range startTime endTime then
          some ⟨id, cleaned, startTime, endTime⟩
        else none
  else none

/-- `Job.overlaps_with` (`job.py:68-78`):
`self.startTime < other.endTime and self.endTime > other.startTime`. -/
def Job.overlaps_with (a b : Job) : Bool :=
  a.startTime < b.endTime && b.startTime < a.endTime

/-! ## Conflict engine (`app/services/assignment_service.py`) -/

/-- `AssignmentService._times_overlap` (`assignment_service.py:48-52`):
`start1 < end2 and start2 < end1`. -/
def times_overlap (start1 end1 start2 end2 : Int) : Bool :=
  start1 < end2 && start2 < end1

/-- The error kinds the validation path can report
(`assignment_service.py:54-121`). -/
inductive ValidationError where
  | employeeNotFound
  | jobNotFound
  | employeeUnavailable
  | doubleBooking
  | timeOverlap
deriving DecidableEq, Repr

/-- `EmployeeRepository.get_by_id`: first employee with the given id. -/
def employee_get_by_id (employees : List Employee) (employeeId : String) :
    Option Employee :=
  employees.find? (fun e => e.id == employeeId)

/-- `JobRepository.get_by_id`: first job with the given id. -/
def job_get_by_id (jobs : List Job) (jobId : String) : Option Job :=
  jobs.find? (fun j => j.id == jobId)

/-- `AssignmentRepository.get_by_employee_id`
(`assignment_repository.py:43-54`): the FIRST stored assignment whose
`employeeId` matches, or `none` — `next((a for a in assignments if
a.employeeId == employee_id), None)`. -/
def get_by_employee_id (assignments : List Assignment)
    (employeeId : String) : Option Assignment :=
  assignments.find? (fun a => a.employeeId == employeeId)

/-- `AssignmentRepository.get_by_id` (`assignment_repository.py:30-41`). -/
def assignment_get_by_id (assignments : List Assignment)
    (assignmentId : String) : Option Assignment :=
  assignments.find? (fun a => a.id == assignmentId)

/-- `AssignmentService._validate_assignment`
(`assignment_service.py:54-121`): employee lookup, job lookup, availability,
then — against the single assignment returned by `get_by_employee_id` —
double-booking and time-overlap checks, in that order. -/
def validate_assignment (employees : List Employee) (jobs : List Job)
    (assignments : List Assignment) (employeeId jobId : String) :
    Except ValidationError (Employee × Job) :=
  match employee_get_by_id employees employeeId with
  | none => .error .employeeNotFound
  | some employee =>
    match job_get_by_id jobs jobId with
    | none => .error .jobNotFound
    | some job =>
      if employee.availability = false then .error .employeeUnavailable
      else
        match get_by_employee_id assignments employeeId with
        | none => .ok (employee, job)
        | some existing =>
          let existingJob := job_get_by_id jobs existing.jobId
          if existing.jobId == jobId then .error .doubleBooking
          else
            match existingJob with
            | some ej =>
                if times_overlap job.startTime job.endTime
                    ej.startTime ej.endTime then .error .timeOverlap
                else .ok (employee, job)
            | none => .ok (employee, job)

/-- The three in-memory tables, i.e. the parsed contents of the three data
files (Employees, Jobs, Assignments). -/
structure AppState where
  employees : List Employee
  jobs : List Job
  assignments : List Assignment
deriving DecidableEq, Repr

/-- `AssignmentRepository.create` (`assignment_repository.py:79-92`):
read-modify-write that appends the new assignment at the end. -/
def assignment_repo_create (assignments : List Assignment)
    (a : Assignment) : List Assignment :=
  assignments ++ [a]

/-- `AssignmentService.create_assignment` (`assignment_service.py:123-164`):
validate against the current state; on failure return the error kind with
no write at all; on success build the new assignment (generated id `newId`,
`assignedAt` = current time `now`, no notes) and append it to the
Assignments table. -/
def create_assignment (st : AppState) (employeeId jobId newId : String)
    (now : Int) : AppState × Except ValidationError Assignment :=
  match validate_assignment st.employees st.jobs st.assignments
      employeeId jobId with
  | .error e => (st, .error e)
  | .ok _ =>
      let a : Assignment := ⟨newId, employeeId, jobId, now, none⟩
      ({ st with assignments := assignment_repo_create st.assignments a },
       .ok a)

/-- The error kind `delete_assignment` can report. -/
inductive DeleteError where
  | assignmentNotFound
deriving DecidableEq, Repr

/-- `AssignmentRepository.delete` (`assignment_repository.py:112-129`) as it
acts on the list: keep everything whose id differs. -/
def assignment_repo_delete (assignments : List Assignment)
    (assignmentId : String) : List Assignment :=
  assignments.filter (fun a => !(a.id == assignmentId))

/-- `AssignmentService.delete_assignment`
(`assignment_service.py:166-190`): look the assignment up by id; absent →
`AssignmentNotFound`; otherwise remove it, with no further validation. -/
def delete_assignment (assignments : List Assignment)
    (assignmentId : String) : List Assignment × Option DeleteError :=
  match assignment_get_by_id assignments assignmentId with
  | none => (assignments, some .assignmentNotFound)
  | some _ => (assignment_repo_delete assignments assignmentId, none)

/-! ## Job query layer (`app/services/job_service.py`) -/

/-- Round a rational to the nearest integer, ties to even — the behaviour
of the Python builtin `round` on exact values. -/
def roundHalfEven (q : ℚ) : Int :=
  let f : Int := Int.floor q
  let r : ℚ := q - (f : ℚ)
  if r < 1 / 2 then f
  else if 1 / 2 < r then f + 1
  else if 2 ∣ f then f else f + 1

/-- the Python builtin `round(x, 2)`: round to two decimal places, ties to even. -/
def round2 (q : ℚ) : ℚ :=
  ((roundHalfEven (q * 100) : Int) : ℚ) / 100

/-- The result of `JobService.get_statistics` (`job_service.py:186-216`).
`totalHours` is optional because the empty-table branch of the code builds
a dictionary WITHOUT that key. -/
structure JobStats where
  totalJobs : Nat
  averageDurationHours : ℚ
  shortestDurationHours : ℚ
  longestDurationHours : ℚ
  totalHours : Option ℚ
deriving DecidableEq, Repr

/-- the Python builtin `min` over a nonempty list: fold `min` over the tail starting
from the head. -/
def listMin (d : ℚ) (ds : List ℚ) : ℚ := ds.foldl min d

/-- the Python builtin `max` over a nonempty list. -/
def listMax (d : ℚ) (ds : List ℚ) : ℚ := ds.foldl max d

/-- `JobService.get_statistics` (`job_service.py:186-216`): on an empty
table, a result with the four numeric fields zero and no `totalHours`
entry; otherwise count, average, min, max and sum of the durations in
hours, each rounded to two decimal places. -/
def get_statistics (jobs : List Job) : JobStats :=
  match jobs with
  | [] => ⟨0, 0, 0, 0, none⟩
  | j :: js =>
      let durations := (j :: js).map Job.get_duration_hours
      { totalJobs := (j :: js).length
        averageDurationHours :=
          round2 (durations.sum / (durations.length : ℚ))
        shortestDurationHours :=
          round2 (listMin j.get_duration_hours
            (js.map Job.get_duration_hours))
        longestDurationHours :=
          round2 (listMax j.get_duration_hours
            (js.map Job.get_duration_hours))
        totalHours := some (round2 durations.sum) }

/-- `JobService.get_upcoming_jobs` (`job_service.py:164-184`): keep the jobs
with `startTime > now`, then sort ascending by start time. -/
def get_upcoming_jobs (jobs : List Job) (now : Int) : List Job :=
  (jobs.filter (fun j => now < j.startTime)).mergeSort
    (fun a b => a.startTime ≤ b.startTime)

/-- The typed parameter errors of the job filter path
(`job_service.py:40-117`). -/
inductive FilterError where
  | invalidDateTime
  | invalidParameter
deriving DecidableEq, Repr

/-- Python string truthiness for an optional query parameter: present and
non-empty. -/
def providedFilter : Option String → Bool
  | none => false
  | some s => !s.isEmpty

/-- The `start_date` block of `JobService.get_all_jobs`
(`job_service.py:62-73`): a falsy parameter is skipped; a parse failure is
`InvalidDateTime`; otherwise keep jobs with `startTime >= parsed`. -/
def applyStartDate (jobs : List Job) (parseDT : String → Option Int)
    (startDate : Option String) : Except FilterError (List Job) :=
  match startDate with
  | none => .ok jobs
  | some s =>
      if s.isEmpty then .ok jobs
      else
        match parseDT s with
        | none => .error .invalidDateTime
        | some t => .ok (jobs.filter (fun j => t ≤ j.startTime))

/-- The `end_date` block of `JobService.get_all_jobs`
(`job_service.py:75-86`): keep jobs with `endTime <= parsed`. -/
def applyEndDate (jobs : List Job) (parseDT : String → Option Int)
    (endDate : Option String) : Except FilterError (List Job) :=
  match endDate with
  | none => .ok jobs
  | some s =>
      if s.isEmpty then .ok jobs
      else
        match parseDT s with
        | none => .error .invalidDateTime
        | some t => .ok (jobs.filter (fun j => j.endTime ≤ t))

/-- The `min_duration` block of `JobService.get_all_jobs`
(`job_service.py:88-99`): a non-numeric value is `InvalidParameter`. -/
def applyMinDuration (jobs : List Job) (parseFloat : String → Option ℚ)
    (minDuration : Option String) : Except FilterError (List Job) :=
  match minDuration with
  | none => .ok jobs
  | some s =>
      if s.isEmpty then .ok jobs
      else
        match parseFloat s with
        | none => .error .invalidParameter
        | some m => .ok (jobs.filter (fun j => m ≤ j.get_duration_hours))

/-- The `max_duration` block of `JobService.get_all_jobs`
(`job_service.py:101-112`). -/
def applyMaxDuration (jobs : List Job) (parseFloat : String → Option ℚ)
    (maxDuration : Option String) : Except FilterError (List Job) :=
  match maxDuration with
  | none => .ok jobs
  | some s =>
      if s.isEmpty then .ok jobs
      else
        match parseFloat s with
        | none => .error .invalidParameter
        | some m => .ok (jobs.filter (fun j => j.get_duration_hours ≤ m))

/-- `JobService.get_all_jobs` (`job_service.py:40-117`): apply the four
filter blocks in order — each may short-circuit with a typed error — then
sort by start time, most recent first. `parseDT` stands for
`AssignmentValidator.parse_datetime`, `parseFloat` for the Python builtin `float`. -/
def get_all_jobs (jobs : List Job) (parseDT : String → Option Int)
    (parseFloat : String → Option ℚ)
    (startDate endDate minDuration maxDuration : Option String) :
    Except FilterError (List Job) :=
  match applyStartDate jobs parseDT startDate with
  | .error e => .error e
  | .ok j1 =>
    match applyEndDate j1 parseDT endDate with
    | .error e => .error e
    | .ok j2 =>
      match applyMinDuration j2 parseFloat minDuration with
      | .error e => .error e
      | .ok j3 =>
        match applyMaxDuration j3 parseFloat maxDuration with
        | .error e => .error e
        | .ok j4 => .ok (j4.mergeSort (fun a b => b.startTime ≤ a.startTime))

/-! ## Shared helper lemmas -/

/-- The rational duration checks of `job_validate_time_range` amount to the
integer bounds `1800 ≤ endTime - startTime ≤ 86400` on the duration in
seconds (a duration of at least half an hour forces `startTime < endTime`,
so the first branch adds nothing). -/
theorem job_validate_time_range_eq (s e : Int) :
    job_validate_time_range s e =
      (decide (1800 ≤ e - s) && decide (e - s ≤ 86400)) := by
  have h3600 : (0:ℚ) < 3600 := by norm_num
  have h1 : (24 < ((e - s : Int) : ℚ) / 3600) ↔ 86400 < e - s := by
    rw [lt_div_iff₀ h3600,
      show ((24:ℚ) * 3600) = ((86400 : Int) : ℚ) by norm_num, Int.cast_lt]
  have h2 : (((e - s : Int) : ℚ) / 3600 < 1 / 2) ↔ e - s < 1800 := by
    rw [div_lt_iff₀ h3600,
      show ((1:ℚ) / 2 * 3600) = ((1800 : Int) : ℚ) by norm_num, Int.cast_lt]
  unfold job_validate_time_range
  by_cases hes : e ≤ s
  · simp only [hes, if_true]
    have hlt : ¬ (1800 ≤ e - s) := by omega
    simp [hlt]
  · simp only [hes, if_false]
    by_cases h24 : 24 < ((e - s : Int) : ℚ) / 3600
    · rw [if_pos h24]
      have h86 := h1.mp h24
      have hgt : ¬ (e - s ≤ 86400) := by omega
      simp [hgt]
    · rw [if_neg h24]
      by_cases h05 : ((e - s : Int) : ℚ) / 3600 < 1 / 2
      · rw [if_pos h05]
        have hsm := h2.mp h05
        have hlt : ¬ (1800 ≤ e - s) := by omega
        simp [hlt]
      · rw [if_neg h05]
        have hA : 1800 ≤ e - s := by
          by_contra hc
          exact h05 (h2.mpr (by omega))
        have hB : e - s ≤ 86400 := by
          by_contra hc
          exact h24 (h1.mpr (by omega))
        simp [hA, hB]

/-- Duration at least half an hour, in hours, is the integer bound in
seconds. -/
theorem half_le_duration_iff (s e : Int) :
    ((1:ℚ) / 2 ≤ ((e - s : Int) : ℚ) / 3600) ↔ 1800 ≤ e - s := by
  rw [le_div_iff₀ (by norm_num : (0:ℚ) < 3600),
    show ((1:ℚ) / 2 * 3600) = ((1800 : Int) : ℚ) by norm_num, Int.cast_le]

/-- Duration at most 24 hours, in hours, is the integer bound in seconds. -/
theorem duration_le_24_iff (s e : Int) :
    (((e - s : Int) : ℚ) / 3600 ≤ 24) ↔ e - s ≤ 86400 := by
  rw [div_le_iff₀ (by norm_num : (0:ℚ) < 3600),
    show ((24:ℚ) * 3600) = ((86400 : Int) : ℚ) by norm_num, Int.cast_le]

/-- A left fold of `min` lands on a member of the list headed by the seed. -/
theorem listMin_mem (ds : List ℚ) : ∀ d : ℚ, listMin d ds ∈ d :: ds := by
  induction ds with
  | nil => intro d; simp [listMin]
  | cons x xs ih =>
      intro d
      have hstep : listMin d (x :: xs) = listMin (min d x) xs := rfl
      have h := ih (min d x)
      rw [hstep]
      rcases List.mem_cons.mp h with h1 | h1
      · rcases le_total d x with hdx | hdx
        · rw [h1, min_eq_left hdx]; exact List.mem_cons_self _ _
        · rw [h1, min_eq_right hdx]
          exact List.mem_cons.mpr (Or.inr (List.mem_cons_self _ _))
      · exact List.mem_cons.mpr (Or.inr (List.mem_cons.mpr (Or.inr h1)))

/-- A left fold of `min` is a lower bound for the seed and every element. -/
theorem listMin_le (ds : List ℚ) :
    ∀ d x : ℚ, x ∈ d :: ds → listMin d ds ≤ x := by
  induction ds with
  | nil =>
      intro d x hx
      rcases List.mem_cons.mp hx with h | h
      · simp [listMin, h]
      · simp at h
  | cons y ys ih =>
      intro d x hx
      have step : listMin d (y :: ys) = listMin (min d y) ys := by
        simp [listMin, List.foldl_cons]
      rcases List.mem_cons.mp hx with h | h
      · subst h
        calc listMin x (y :: ys) = listMin (min x y) ys := step
          _ ≤ min x y := ih (min x y) (min x y) (List.mem_cons_self _ _)
          _ ≤ x := min_le_left _ _
      · rcases List.mem_cons.mp h with h1 | h1
        · subst h1
          calc listMin d (x :: ys) = listMin (min d x) ys := by
                simp [listMin, List.foldl_cons]
            _ ≤ min d x := ih (min d x) (min d x) (List.mem_cons_self _ _)
            _ ≤ x := min_le_right _ _
        · rw [step]
          exact ih (min d y) x (List.mem_cons.mpr (Or.inr h1))

/-- A left fold of `max` lands on a member of the list headed by the seed. -/
theorem listMax_mem (ds : List ℚ) : ∀ d : ℚ, listMax d ds ∈ d :: ds := by
  induction ds with
  | nil => intro d; simp [listMax]
  | cons x xs ih =>
      intro d
      have hstep : listMax d (x :: xs) = listMax (max d x) xs := rfl
      have h := ih (max d x)
      rw [hstep]
      rcases List.mem_cons.mp h with h1 | h1
      · rcases le_total d x with hdx | hdx
        · rw [h1, max_eq_right hdx]
          exact List.mem_cons.mpr (Or.inr (List.mem_cons_self _ _))
        · rw [h1, max_eq_left hdx]; exact List.mem_cons_self _ _
      · exact List.mem_cons.mpr (Or.inr (List.mem_cons.mpr (Or.inr h1)))

/-- A left fold of `max` is an upper bound for the seed and every element. -/
theorem le_listMax (ds : List ℚ) :
    ∀ d x : ℚ, x ∈ d :: ds → x ≤ listMax d ds := by
  induction ds with
  | nil =>
      intro d x hx
      rcases List.mem_cons.mp hx with h | h
      · simp [listMax, h]
      · simp at h
  | cons y ys ih =>
      intro d x hx
      have step : listMax d (y :: ys) = listMax (max d y) ys := by
        simp [listMax, List.foldl_cons]
      rcases List.mem_cons.mp hx with h | h
      · subst h
        calc x ≤ max x y := le_max_left _ _
          _ ≤ listMax (max x y) ys :=
              ih (max x y) (max x y) (List.mem_cons_self _ _)
          _ = listMax x (y :: ys) := by simp [listMax, List.foldl_cons]
      · rcases List.mem_cons.mp h with h1 | h1
        · subst h1
          calc x ≤ max d x := le_max_right _ _
            _ ≤ listMax (max d x) ys :=
                ih (max d x) (max d x) (List.mem_cons_self _ _)
            _ = listMax d (x :: ys) := by simp [listMax, List.foldl_cons]
        · rw [step]
          exact ih (max d y) x (List.mem_cons.mpr (Or.inr h1))

/-! ## Concrete fixtures

Small concrete employees, jobs and assignments used to evaluate the model
at specific inputs. Windows are seconds on one day: `demoJob1` is
`[00:00, 02:00)`, `demoJob2` is `[03:00, 05:00)` (disjoint from
`demoJob1`), `demoJob3` is `[01:00, 04:00)` (overlapping `demoJob1`). -/

def demoEmployee : Employee := ⟨"E1", "Alice", "TCP", true⟩

def demoJob1 : Job := ⟨"J1", "Morning shift", 0, 7200⟩

def demoJob2 : Job := ⟨"J2", "Afternoon shift", 10800, 18000⟩

def demoJob3 : Job := ⟨"J3", "Midday shift", 3600, 14400⟩

def demoAssignment1 : Assignment := ⟨"A1", "E1", "J1", 0, none⟩

def demoAssignment2 : Assignment := ⟨"A2", "E1", "J2", 0, none⟩

def demoAssignment3 : Assignment := ⟨"A3", "E1", "J3", 0, none⟩

/-- A date/number parser that rejects every input, standing for parse
attempts on malformed strings (`datetime.fromisoformat` raises on them,
including on the empty string). -/
def parseRejectAll : String → Option Int := fun _ => none

/-- A float parser that rejects every input. -/
def parseFloatRejectAll : String → Option ℚ := fun _ => none

/-! ## Claim theorems -/

/-- Claim C3: the time-window overlap test is the half-open interval test:
windows that touch at an edge do not overlap, the test holds exactly when
each window starts strictly before the other ends, and the job-model test
`overlaps_with` agrees with the conflict-engine test `times_overlap`. -/
theorem overlap_halfopen_claim_C3 (a b : Job) :
    (a.endTime ≤ b.startTime → a.overlaps_with b = false)
    ∧ (a.overlaps_with b = true ↔
        (a.startTime < b.endTime ∧ b.startTime < a.endTime))
    ∧ a.overlaps_with b
        = times_overlap a.startTime a.endTime b.startTime b.endTime := by
  refine ⟨?_, ?_, rfl⟩
  · intro h
    have hb : ¬ (b.startTime < a.endTime) := by omega
    simp [Job.overlaps_with, hb]
  · simp [Job.overlaps_with]

/-- Witness for claim C3 at a concrete touching pair: `[0, 7200)` does not
overlap `[7200, 10000)`. -/
theorem overlap_halfopen_claim_C3_witness :
    Job.overlaps_with ⟨"a", "Shift A", 0, 7200⟩ ⟨"b", "Shift B", 7200, 10000⟩
      = false :=
  (overlap_halfopen_claim_C3 ⟨"a", "Shift A", 0, 7200⟩
    ⟨"b", "Shift B", 7200, 10000⟩).1 (by decide)

/-- Claim C5: with a well-formed name, job construction succeeds exactly
when the end is strictly after the start and the duration in hours lies in
`[1/2, 24]`; any violation — including `endTime = startTime` — produces no
job (the construction fails with a validation error). -/
theorem job_construction_claim_C5 (id name : String) (s e : Int)
    (hf : jobNameFieldOk name = true) (hn : job_validate_name name ≠ none) :
    ((∃ j, mkJob id name s e = some j) ↔
      (s < e ∧ (1:ℚ) / 2 ≤ ((e - s : Int) : ℚ) / 3600
        ∧ ((e - s : Int) : ℚ) / 3600 ≤ 24))
    ∧ (¬ (s < e ∧ (1:ℚ) / 2 ≤ ((e - s : Int) : ℚ) / 3600
        ∧ ((e - s : Int) : ℚ) / 3600 ≤ 24) →
      mkJob id name s e = none) := by
  obtain ⟨cleaned, hc⟩ : ∃ c, job_validate_name name = some c := by
    cases h : job_validate_name name with
    | none => exact absurd h hn
    | some c => exact ⟨c, rfl⟩
  have hmk : mkJob id name s e =
      (if job_validate_time_range s e then some ⟨id, cleaned, s, e⟩
       else none) := by
    simp [mkJob, hf, hc]
  have hval : job_validate_time_range s e = true ↔
      (1800 ≤ e - s ∧ e - s ≤ 86400) := by
    rw [job_validate_time_range_eq]
    simp
  have hrhs : (s < e ∧ (1:ℚ) / 2 ≤ ((e - s : Int) : ℚ) / 3600
        ∧ ((e - s : Int) : ℚ) / 3600 ≤ 24) ↔
      (1800 ≤ e - s ∧ e - s ≤ 86400) := by
    rw [half_le_duration_iff, duration_le_24_iff]
    constructor
    · rintro ⟨_, h1, h2⟩
      exact ⟨h1, h2⟩
    · rintro ⟨h1, h2⟩
      exact ⟨by omega, h1, h2⟩
  constructor
  · rw [hrhs, ← hval]
    constructor
    · rintro ⟨j, hj⟩
      by_cases hv : job_validate_time_range s e = true
      · exact hv
      · rw [hmk, if_neg hv] at hj
        cases hj
    · intro hv
      exact ⟨⟨id, cleaned, s, e⟩, by rw [hmk, if_pos hv]⟩
  · intro hnrhs
    rw [hrhs, ← hval] at hnrhs
    rw [hmk, if_neg hnrhs]

/-- Witness for claim C5 at a concrete valid input: a two-hour job
constructs successfully, matching the stated duration window. -/
theorem job_construction_claim_C5_witness :
    (∃ j, mkJob "J1" "Morning shift" 0 7200 = some j) ↔
      ((0:Int) < 7200 ∧ (1:ℚ) / 2 ≤ ((7200 - 0 : Int) : ℚ) / 3600
        ∧ ((7200 - 0 : Int) : ℚ) / 3600 ≤ 24) :=
  (job_construction_claim_C5 "J1" "Morning shift" 0 7200 (by decide)
    (by decide)).1

/-- Claim C7: record-store round trip — writing a table and reading it back
yields the same ordered collection of records, for every store state, every
table and every collection. -/
theorem roundtrip_claim_C7 {α : Type} (st : StoreState α) (path : String)
    (records : List α) :
    read_json_file (write_json_file st path records) path = records := by
  simp [read_json_file, write_json_file]

/-- Claim C1 exhibit: employee `E1` holds two stored assignments, and the
SECOND one already references the candidate job `J2`; the claim (and the
stated rules of the service) require `DoubleBooking`, but validation
consults only the first stored assignment, succeeds, and
`create_assignment` persists a stored double booking. -/
theorem double_booking_missed_claim_C1 :
    (demoAssignment2 ∈ [demoAssignment1, demoAssignment2]
      ∧ demoAssignment2.employeeId = "E1" ∧ demoAssignment2.jobId = "J2")
    ∧ validate_assignment [demoEmployee] [demoJob1, demoJob2]
        [demoAssignment1, demoAssignment2] "E1" "J2"
      = .ok (demoEmployee, demoJob2)
    ∧ (create_assignment
        ⟨[demoEmployee], [demoJob1, demoJob2],
          [demoAssignment1, demoAssignment2]⟩ "E1" "J2" "A9" 3600).1.assignments
      = [demoAssignment1, demoAssignment2, ⟨"A9", "E1", "J2", 3600, none⟩] :=
  ⟨⟨by decide, rfl, rfl⟩, rfl, rfl⟩

/-- Counterexample to claim C2 as stated: both a double booking (the second
stored assignment has the candidate job `J3`) and a time overlap (the first
stored assignment references `J1`, which overlaps `J3`) exist, yet the code
reports `TimeOverlap`, not the claimed `DoubleBooking`. -/
theorem priority_claim_C2_counterexample :
    (demoAssignment3 ∈ [demoAssignment1, demoAssignment3]
      ∧ demoAssignment3.employeeId = "E1" ∧ demoAssignment3.jobId = "J3")
    ∧ (job_get_by_id [demoJob1, demoJob3] demoAssignment1.jobId
        = some demoJob1
      ∧ times_overlap demoJob3.startTime demoJob3.endTime
          demoJob1.startTime demoJob1.endTime = true)
    ∧ validate_assignment [demoEmployee] [demoJob1, demoJob3]
        [demoAssignment1, demoAssignment3] "E1" "J3"
      = .error .timeOverlap :=
  ⟨⟨by decide, rfl, rfl⟩, ⟨rfl, by decide⟩, rfl⟩

/-- Claim C2 (amended): validation reports exactly one error kind; the
lookups and the availability check come first, in the fixed order
EmployeeNotFound, JobNotFound, EmployeeUnavailable; the DoubleBooking and
TimeOverlap checks are then decided against only the FIRST stored
assignment of the employee, with DoubleBooking taking priority over
TimeOverlap on that assignment. -/
theorem priority_claim_C2 (es : List Employee) (js : List Job)
    (as : List Assignment) (eid jid : String) :
    (employee_get_by_id es eid = none →
      validate_assignment es js as eid jid = .error .employeeNotFound)
    ∧ (∀ emp, employee_get_by_id es eid = some emp →
        job_get_by_id js jid = none →
        validate_assignment es js as eid jid = .error .jobNotFound)
    ∧ (∀ emp job, employee_get_by_id es eid = some emp →
        job_get_by_id js jid = some job → emp.availability = false →
        validate_assignment es js as eid jid = .error .employeeUnavailable)
    ∧ (∀ emp job a, employee_get_by_id es eid = some emp →
        job_get_by_id js jid = some job → emp.availability = true →
        get_by_employee_id as eid = some a → a.jobId = jid →
        validate_assignment es js as eid jid = .error .doubleBooking)
    ∧ (∀ emp job a ej, employee_get_by_id es eid = some emp →
        job_get_by_id js jid = some job → emp.availability = true →
        get_by_employee_id as eid = some a → a.jobId ≠ jid →
        job_get_by_id js a.jobId = some ej →
        times_overlap job.startTime job.endTime ej.startTime ej.endTime
          = true →
        validate_assignment es js as eid jid = .error .timeOverlap) := by
  refine ⟨?_, ?_, ?_, ?_, ?_⟩
  · intro h
    unfold validate_assignment
    rw [h]
  · intro emp hemp hjob
    unfold validate_assignment
    rw [hemp, hjob]
  · intro emp job hemp hjob hav
    unfold validate_assignment
    rw [hemp, hjob]
    simp [hav]
  · intro emp job a hemp hjob hav ha hjid
    unfold validate_assignment
    rw [hemp, hjob]
    simp [hav, ha, hjid]
  · intro emp job a ej hemp hjob hav ha hne hej hov
    have hbeq : (a.jobId == jid) = false := beq_eq_false_iff_ne.mpr hne
    unfold validate_assignment
    rw [hemp, hjob]
    simp [hav, ha, hbeq, hej, hov]

/-- Witness for claim C2 at a concrete input: a single stored assignment
with the candidate job is reported as `DoubleBooking`. -/
theorem priority_claim_C2_witness :
    validate_assignment [demoEmployee] [demoJob1, demoJob2]
      [demoAssignment2] "E1" "J2" = .error .doubleBooking :=
  (priority_claim_C2 [demoEmployee] [demoJob1, demoJob2]
      [demoAssignment2] "E1" "J2").2.2.2.1
    demoEmployee demoJob2 demoAssignment2 rfl rfl rfl rfl rfl

/-- Claim C4: `delete_assignment` reports `AssignmentNotFound` exactly when
no stored assignment has the requested id; otherwise it unconditionally
removes that assignment (no re-validation), and a subsequent lookup of the
same id returns absent. -/
theorem delete_claim_C4 (as : List Assignment) (aid : String) :
    ((delete_assignment as aid).2 = some .assignmentNotFound ↔
      ∀ a ∈ as, a.id ≠ aid)
    ∧ ((delete_assignment as aid).2 = none →
        (delete_assignment as aid).1 = as.filter (fun a => !(a.id == aid))
        ∧ assignment_get_by_id (delete_assignment as aid).1 aid = none) := by
  cases h : assignment_get_by_id as aid with
  | none =>
      have hall : ∀ a ∈ as, a.id ≠ aid := by
        intro a ha
        have hfind := List.find?_eq_none.mp h a ha
        simpa using hfind
      have hd : delete_assignment as aid = (as, some .assignmentNotFound) := by
        simp [delete_assignment, h]
      rw [hd]
      refine ⟨⟨fun _ => hall, fun _ => rfl⟩, ?_⟩
      intro h2
      exact absurd h2 (by simp)
  | some a0 =>
      have hmem : a0 ∈ as := List.mem_of_find?_eq_some h
      have hid : a0.id = aid := by
        have hp := List.find?_some h
        simpa using hp
      have hd : delete_assignment as aid
          = (as.filter (fun a => !(a.id == aid)), none) := by
        simp [delete_assignment, h, assignment_repo_delete]
      rw [hd]
      refine ⟨⟨fun hfalse => (by cases hfalse),
        fun hall => absurd hid (hall a0 hmem)⟩, ?_⟩
      intro _
      refine ⟨rfl, ?_⟩
      apply List.find?_eq_none.mpr
      intro x hx
      have hxid := (List.mem_filter.mp hx).2
      simp only [Bool.not_eq_true'] at hxid
      simp [hxid]

/-- Witness for claim C4 at a concrete input: deleting the only stored
assignment by its id empties the table and makes the lookup return
absent. -/
theorem delete_claim_C4_witness :
    (delete_assignment [demoAssignment1] "A1").1
        = [demoAssignment1].filter (fun a => !(a.id == "A1"))
    ∧ assignment_get_by_id (delete_assignment [demoAssignment1] "A1").1 "A1"
        = none :=
  (delete_claim_C4 [demoAssignment1] "A1").2 rfl

/-- Counterexample to claim C6 as stated: on an empty Job table the result
of `get_statistics` has no `totalHours` entry at all (the empty-table
branch of the code builds the dictionary without that key), so that field
is not zero as claimed. -/
theorem statistics_claim_C6_counterexample :
    (get_statistics []).totalJobs = 0
    ∧ (get_statistics []).totalHours ≠ some 0 := by
  exact ⟨rfl, by simp [get_statistics]⟩

/-- Claim C6 (amended): on an empty Job table all four reported fields are
zero and the `totalHours` entry is absent, with no division error; on a
non-empty table the result carries the count and the rounded (two decimal
places) average, minimum, maximum and sum of the job durations in hours. -/
theorem statistics_claim_C6 (jobs : List Job) :
    (jobs = [] → get_statistics jobs = ⟨0, 0, 0, 0, none⟩)
    ∧ (jobs ≠ [] →
        (get_statistics jobs).totalJobs = jobs.length
        ∧ (get_statistics jobs).averageDurationHours
            = round2 ((jobs.map Job.get_duration_hours).sum
                / (jobs.length : ℚ))
        ∧ (∃ d ∈ jobs.map Job.get_duration_hours,
            (get_statistics jobs).shortestDurationHours = round2 d
            ∧ ∀ d' ∈ jobs.map Job.get_duration_hours, d ≤ d')
        ∧ (∃ d ∈ jobs.map Job.get_duration_hours,
            (get_statistics jobs).longestDurationHours = round2 d
            ∧ ∀ d' ∈ jobs.map Job.get_duration_hours, d' ≤ d)
        ∧ (get_statistics jobs).totalHours
            = some (round2 (jobs.map Job.get_duration_hours).sum)) := by
  cases jobs with
  | nil =>
      exact ⟨fun _ => rfl, fun h => absurd rfl h⟩
  | cons j js =>
      refine ⟨fun h => (by cases h), fun _ => ?_⟩
      refine ⟨rfl, ?_, ?_, ?_, rfl⟩
      · simp [get_statistics, List.length_map]
      · refine ⟨listMin j.get_duration_hours (js.map Job.get_duration_hours),
          ?_, rfl, ?_⟩
        · simpa using listMin_mem (js.map Job.get_duration_hours)
            j.get_duration_hours
        · intro d' hd'
          exact listMin_le (js.map Job.get_duration_hours)
            j.get_duration_hours d' (by simpa using hd')
      · refine ⟨listMax j.get_duration_hours (js.map Job.get_duration_hours),
          ?_, rfl, ?_⟩
        · simpa using listMax_mem (js.map Job.get_duration_hours)
            j.get_duration_hours
        · intro d' hd'
          exact le_listMax (js.map Job.get_duration_hours)
            j.get_duration_hours d' (by simpa using hd')

/-- Witness for claim C6: both branches at concrete inputs — the empty
table gives the zeroed result without `totalHours`, and a one-job table
reports the job count. -/
theorem statistics_claim_C6_witness :
    get_statistics [] = ⟨0, 0, 0, 0, none⟩
    ∧ (get_statistics [demoJob1]).totalJobs = [demoJob1].length := by
  constructor
  · exact (statistics_claim_C6 []).1 rfl
  · exact ((statistics_claim_C6 [demoJob1]).2 (by simp)).1

/-- A provided, non-empty, unparsable start date makes the first filter
block fail with `InvalidDateTime`. -/
theorem applyStartDate_err (jobs : List Job) (pDT : String → Option Int)
    (s : String) (hne : s.isEmpty = false) (hp : pDT s = none) :
    applyStartDate jobs pDT (some s) = .error .invalidDateTime := by
  simp [applyStartDate, hne, hp]

/-- A provided, non-empty, unparsable end date fails with
`InvalidDateTime`. -/
theorem applyEndDate_err (jobs : List Job) (pDT : String → Option Int)
    (s : String) (hne : s.isEmpty = false) (hp : pDT s = none) :
    applyEndDate jobs pDT (some s) = .error .invalidDateTime := by
  simp [applyEndDate, hne, hp]

/-- A provided, non-empty, non-numeric minimum duration fails with
`InvalidParameter`. -/
theorem applyMinDuration_err (jobs : List Job) (pF : String → Option ℚ)
    (s : String) (hne : s.isEmpty = false) (hp : pF s = none) :
    applyMinDuration jobs pF (some s) = .error .invalidParameter := by
  simp [applyMinDuration, hne, hp]

/-- A provided, non-empty, non-numeric maximum duration fails with
`InvalidParameter`. -/
theorem applyMaxDuration_err (jobs : List Job) (pF : String → Option ℚ)
    (s : String) (hne : s.isEmpty = false) (hp : pF s = none) :
    applyMaxDuration jobs pF (some s) = .error .invalidParameter := by
  simp [applyMaxDuration, hne, hp]

/-- A start-date filter whose provided values parse never fails. -/
theorem applyStartDate_ok (jobs : List Job) (pDT : String → Option Int)
    (sd : Option String)
    (h : ∀ s, sd = some s → s.isEmpty = false → (pDT s).isSome = true) :
    ∃ l, applyStartDate jobs pDT sd = .ok l := by
  cases sd with
  | none => exact ⟨jobs, rfl⟩
  | some s =>
      by_cases he : s.isEmpty = true
      · exact ⟨jobs, by simp [applyStartDate, he]⟩
      · have hs := h s rfl (by simpa using he)
        cases hp : pDT s with
        | none => rw [hp] at hs; cases hs
        | some t =>
            exact ⟨jobs.filter (fun j => t ≤ j.startTime),
              by simp [applyStartDate, he, hp]⟩

/-- An end-date filter whose provided values parse never fails. -/
theorem applyEndDate_ok (jobs : List Job) (pDT : String → Option Int)
    (ed : Option String)
    (h : ∀ s, ed = some s → s.isEmpty = false → (pDT s).isSome = true) :
    ∃ l, applyEndDate jobs pDT ed = .ok l := by
  cases ed with
  | none => exact ⟨jobs, rfl⟩
  | some s =>
      by_cases he : s.isEmpty = true
      · exact ⟨jobs, by simp [applyEndDate, he]⟩
      · have hs := h s rfl (by simpa using he)
        cases hp : pDT s with
        | none => rw [hp] at hs; cases hs
        | some t =>
            exact ⟨jobs.filter (fun j => j.endTime ≤ t),
              by simp [applyEndDate, he, hp]⟩

/-- A minimum-duration filter whose provided values parse never fails. -/
theorem applyMinDuration_ok (jobs : List Job) (pF : String → Option ℚ)
    (mn : Option String)
    (h : ∀ s, mn = some s → s.isEmpty = false → (pF s).isSome = true) :
    ∃ l, applyMinDuration jobs pF mn = .ok l := by
  cases mn with
  | none => exact ⟨jobs, rfl⟩
  | some s =>
      by_cases he : s.isEmpty = true
      · exact ⟨jobs, by simp [applyMinDuration, he]⟩
      · have hs := h s rfl (by simpa using he)
        cases hp : pF s with
        | none => rw [hp] at hs; cases hs
        | some t =>
            exact ⟨jobs.filter (fun j => t ≤ j.get_duration_hours),
              by simp [applyMinDuration, he, hp]⟩

/-- A maximum-duration filter whose provided values parse never fails. -/
theorem applyMaxDuration_ok (jobs : List Job) (pF : String → Option ℚ)
    (mx : Option String)
    (h : ∀ s, mx = some s → s.isEmpty = false → (pF s).isSome = true) :
    ∃ l, applyMaxDuration jobs pF mx = .ok l := by
  cases mx with
  | none => exact ⟨jobs, rfl⟩
  | some s =>
      by_cases he : s.isEmpty = true
      · exact ⟨jobs, by simp [applyMaxDuration, he]⟩
      · have hs := h s rfl (by simpa using he)
        cases hp : pF s with
        | none => rw [hp] at hs; cases hs
        | some t =>
            exact ⟨jobs.filter (fun j => j.get_duration_hours ≤ t),
              by simp [applyMaxDuration, he, hp]⟩

/-- Counterexample to claim C8 as stated: an empty-string start date is a
malformed date (`datetime.fromisoformat` rejects it, here `parseRejectAll`
rejects every string), yet the query succeeds with a job list — Python
string truthiness makes the code skip the filter instead of reporting a
typed parameter error. -/
theorem filters_claim_C8_counterexample :
    parseRejectAll "" = none
    ∧ get_all_jobs [] parseRejectAll parseFloatRejectAll
        (some "") none none none = .ok [] := by
  constructor
  · rfl
  · have he : "".isEmpty = true := rfl
    simp [get_all_jobs, applyStartDate, applyEndDate, applyMinDuration,
      applyMaxDuration, he]

/-- Claim C8 (amended): a provided NON-EMPTY filter value that fails to
parse makes the query return the typed error — `InvalidDateTime` for the
date filters, `InvalidParameter` for the duration filters, checked in the
order startDate, endDate, minDuration, maxDuration — and no job list; when
every provided non-empty filter parses, a job list is returned. An
empty-string filter value is treated as absent and skipped. -/
theorem filters_claim_C8 (jobs : List Job) (pDT : String → Option Int)
    (pF : String → Option ℚ) (sd ed mn mx : Option String) :
    (∀ s, sd = some s → s.isEmpty = false → pDT s = none →
      get_all_jobs jobs pDT pF sd ed mn mx = .error .invalidDateTime)
    ∧ (∀ s, (∀ s0, sd = some s0 → s0.isEmpty = false →
          (pDT s0).isSome = true) →
        ed = some s → s.isEmpty = false → pDT s = none →
        get_all_jobs jobs pDT pF sd ed mn mx = .error .invalidDateTime)
    ∧ (∀ s, (∀ s0, sd = some s0 → s0.isEmpty = false →
          (pDT s0).isSome = true) →
        (∀ s0, ed = some s0 → s0.isEmpty = false →
          (pDT s0).isSome = true) →
        mn = some s → s.isEmpty = false → pF s = none →
        get_all_jobs jobs pDT pF sd ed mn mx = .error .invalidParameter)
    ∧ (∀ s, (∀ s0, sd = some s0 → s0.isEmpty = false →
          (pDT s0).isSome = true) →
        (∀ s0, ed = some s0 → s0.isEmpty = false →
          (pDT s0).isSome = true) →
        (∀ s0, mn = some s0 → s0.isEmpty = false →
          (pF s0).isSome = true) →
        mx = some s → s.isEmpty = false → pF s = none →
        get_all_jobs jobs pDT pF sd ed mn mx = .error .invalidParameter)
    ∧ ((∀ s0, sd = some s0 → s0.isEmpty = false →
          (pDT s0).isSome = true) →
        (∀ s0, ed = some s0 → s0.isEmpty = false →
          (pDT s0).isSome = true) →
        (∀ s0, mn = some s0 → s0.isEmpty = false →
          (pF s0).isSome = true) →
        (∀ s0, mx = some s0 → s0.isEmpty = false →
          (pF s0).isSome = true) →
        ∃ l, get_all_jobs jobs pDT pF sd ed mn mx = .ok l) := by
  refine ⟨?_, ?_, ?_, ?_, ?_⟩
  · intro s hsd hne hp
    rw [hsd]
    have h1 := applyStartDate_err jobs pDT s hne hp
    simp [get_all_jobs, h1]
  · intro s hsdok hed hne hp
    obtain ⟨l1, h1⟩ := applyStartDate_ok jobs pDT sd hsdok
    have h2 := applyEndDate_err l1 pDT s hne hp
    rw [hed]
    simp [get_all_jobs, h1, h2]
  · intro s hsdok hedok hmn hne hp
    obtain ⟨l1, h1⟩ := applyStartDate_ok jobs pDT sd hsdok
    obtain ⟨l2, h2⟩ := applyEndDate_ok l1 pDT ed hedok
    have h3 := applyMinDuration_err l2 pF s hne hp
    rw [hmn]
    simp [get_all_jobs, h1, h2, h3]
  · intro s hsdok hedok hmnok hmx hne hp
    obtain ⟨l1, h1⟩ := applyStartDate_ok jobs pDT sd hsdok
    obtain ⟨l2, h2⟩ := applyEndDate_ok l1 pDT ed hedok
    obtain ⟨l3, h3⟩ := applyMinDuration_ok l2 pF mn hmnok
    have h4 := applyMaxDuration_err l3 pF s hne hp
    rw [hmx]
    simp [get_all_jobs, h1, h2, h3, h4]
  · intro hsdok hedok hmnok hmxok
    obtain ⟨l1, h1⟩ := applyStartDate_ok jobs pDT sd hsdok
    obtain ⟨l2, h2⟩ := applyEndDate_ok l1 pDT ed hedok
    obtain ⟨l3, h3⟩ := applyMinDuration_ok l2 pF mn hmnok
    obtain ⟨l4, h4⟩ := applyMaxDuration_ok l3 pF mx hmxok
    exact ⟨l4.mergeSort (fun a b => b.startTime ≤ a.startTime),
      by simp [get_all_jobs, h1, h2, h3, h4]⟩

/-- Witness for claim C8 at a concrete input: a non-empty unparsable start
date yields `InvalidDateTime`. -/
theorem filters_claim_C8_witness :
    get_all_jobs [] parseRejectAll parseFloatRejectAll
      (some "not-a-date") none none none = .error .invalidDateTime :=
  (filters_claim_C8 [] parseRejectAll parseFloatRejectAll
      (some "not-a-date") none none none).1 "not-a-date" rfl (by decide) rfl

/-- Claim C9: the upcoming-jobs query returns exactly the jobs whose start
time is strictly after `now` — as a permutation of the filtered table, with
membership characterized — sorted ascending by start time; jobs starting at
or before `now` are excluded. -/
theorem upcoming_claim_C9 (jobs : List Job) (now : Int) :
    (get_upcoming_jobs jobs now).Perm
        (jobs.filter (fun j => now < j.startTime))
    ∧ (get_upcoming_jobs jobs now).Pairwise
        (fun a b => a.startTime ≤ b.startTime)
    ∧ ∀ j, j ∈ get_upcoming_jobs jobs now ↔ (j ∈ jobs ∧ now < j.startTime) := by
  have hperm := List.mergeSort_perm
    (jobs.filter (fun j => now < j.startTime))
    (fun a b => a.startTime ≤ b.startTime)
  refine ⟨hperm, ?_, ?_⟩
  · have hs := @List.sorted_mergeSort Job
      (fun a b : Job => decide (a.startTime ≤ b.startTime))
      (fun a b c hab hbc => by
        simp only [decide_eq_true_eq] at hab hbc ⊢
        omega)
      (fun a b => by
        simp only [Bool.or_eq_true, decide_eq_true_eq]
        omega)
      (jobs.filter (fun j => now < j.startTime))
    exact hs.imp (fun h => of_decide_eq_true h)
  · intro j
    rw [show (j ∈ get_upcoming_jobs jobs now) ↔
        (j ∈ jobs.filter (fun j => now < j.startTime)) from hperm.mem_iff]
    simp [List.mem_filter]

/-- Claim C10: `create_assignment` has the exact frame effect — on any
error all three tables are unchanged, and on success the Employees and
Jobs tables are unchanged while the Assignments table is the prior table
with exactly the one new record appended at the end. -/
theorem frame_claim_C10 (st : AppState) (eid jid nid : String) (now : Int) :
    (∀ err, (create_assignment st eid jid nid now).2 = .error err →
      (create_assignment st eid jid nid now).1 = st)
    ∧ ∀ a, (create_assignment st eid jid nid now).2 = .ok a →
      (create_assignment st eid jid nid now).1.employees = st.employees
      ∧ (create_assignment st eid jid nid now).1.jobs = st.jobs
      ∧ (create_assignment st eid jid nid now).1.assignments
          = st.assignments ++ [a] := by
  cases h : validate_assignment st.employees st.jobs st.assignments eid jid with
  | error e =>
      constructor
      · intro err _
        simp [create_assignment, h]
      · intro a ha
        simp [create_assignment, h] at ha
  | ok v =>
      constructor
      · intro err herr
        simp [create_assignment, h] at herr
      · intro a ha
        simp only [create_assignment, h] at ha ⊢
        cases ha
        simp [assignment_repo_create]

/-- Witness for claim C10 at a concrete input: creating an assignment in a
state with one available employee, one job and no assignments leaves the
Employees and Jobs tables unchanged and appends the new record. -/
theorem frame_claim_C10_witness :
    (create_assignment ⟨[demoEmployee], [demoJob1], []⟩
        "E1" "J1" "A9" 0).1.employees = [demoEmployee]
    ∧ (create_assignment ⟨[demoEmployee], [demoJob1], []⟩
        "E1" "J1" "A9" 0).1.jobs = [demoJob1]
    ∧ (create_assignment ⟨[demoEmployee], [demoJob1], []⟩
        "E1" "J1" "A9" 0).1.assignments
        = [] ++ [⟨"A9", "E1", "J1", 0, none⟩] :=
  (frame_claim_C10 ⟨[demoEmployee], [demoJob1], []⟩ "E1" "J1" "A9" 0).2
    ⟨"A9", "E1", "J1", 0, none⟩ rfl

end Scheduling
